import Mathlib

/-!
Verification development for the brfintech spreadsheet/transfer services.

The definitions below are a shallow embedding of the TypeScript sources:
  - src/services/spreadsheetService.ts (column mapper, metrics aggregator, save, reconciler)
  - src/services/transferService.ts    (transfer store conversions, date normalization)
  - the CustomerSpreadsheet component   (locale parser, selection state machine)

Numbers are modelled as rationals (the sources use JS numbers for exact
decimal arithmetic on currency strings); JS NaN is modelled by Option.
-/

namespace BrFintech

/-- Whitespace recognised by the JavaScript regexp class backslash-s and by the
leading-whitespace skipping of parseFloat, restricted to the ASCII repertoire
occurring in the data handled by the sources. -/
def isJsSpace (c : Char) : Bool :=
  c = ' ' || c = '\t' || c = '\n' || c = '\r' || c = '\x0b' || c = '\x0c'

/-- Accent folding for one character: the composite of JS toLowerCase (which maps
accented capitals to accented smalls) with NFD decomposition and removal of
combining marks, specialised to the Portuguese Latin repertoire that appears in
the source field tables (normalizeColumnName). -/
def foldAccent (c : Char) : Char :=
  if c = 'á' || c = 'à' || c = 'â' || c = 'ã' || c = 'ä' || c = 'Á' || c = 'À' || c = 'Â' || c = 'Ã' then 'a'
  else if c = 'é' || c = 'ê' || c = 'è' || c = 'É' || c = 'Ê' then 'e'
  else if c = 'í' || c = 'î' || c = 'Í' then 'i'
  else if c = 'ó' || c = 'ô' || c = 'õ' || c = 'ò' || c = 'Ó' || c = 'Ô' || c = 'Õ' then 'o'
  else if c = 'ú' || c = 'ü' || c = 'ù' || c = 'Ú' || c = 'Ü' then 'u'
  else if c = 'ç' || c = 'Ç' then 'c'
  else c

/-- Trim on character lists: leading and trailing whitespace removed (JS
String.trim). -/
def trimL (l : List Char) : List Char :=
  ((l.dropWhile isJsSpace).reverse.dropWhile isJsSpace).reverse

/-- normalizeColumnName of spreadsheetService.ts line 136: lower-case, trim,
NFD-decompose and strip combining marks. -/
def normalizeColumnName (s : String) : String :=
  String.mk ((trimL (s.toList.map Char.toLower)).map foldAccent)

/-- Character filter of the regexp replace removing every character that is not a
digit, a comma, a dot or a minus sign (the global replace of the class
complementing digits , . - used at lines 194/197/203 and in parseValorBrasileiro). -/
def cleanNumericL (l : List Char) : List Char :=
  l.filter (fun c => c.isDigit || c = ',' || c = '.' || c = '-')

/-- Replacement of the FIRST comma by a dot: the non-global string replace used
throughout the sources. -/
def commaToDotL : List Char → List Char
  | [] => []
  | c :: cs => if c = ',' then '.' :: cs else c :: commaToDotL cs

/-- Numeric value of a list of decimal digit characters. -/
def digitsVal (l : List Char) : Nat :=
  l.foldl (fun acc c => 10 * acc + (c.toNat - 48)) 0

/-- Core of JS parseFloat on a sign-stripped character list: longest prefix of
the form digits [ dot digits ]; none models NaN (no digit found at the start).
The inputs produced by the sources are cleaned numeric strings, so the exponent
and Infinity forms of the full grammar never occur and are not modelled. -/
def jsParseFloatCore (l : List Char) : Option Rat :=
  let d1 := l.takeWhile Char.isDigit
  let rest := l.dropWhile Char.isDigit
  if rest.headD ' ' = '.' then
    let d2 := rest.tail.takeWhile Char.isDigit
    if d1.isEmpty && d2.isEmpty then none
    else some ((digitsVal d1 : Rat) + (digitsVal d2 : Rat) / (10 : Rat) ^ d2.length)
  else if d1.isEmpty then none else some ((digitsVal d1 : Rat))

/-- JS parseFloat: skip leading whitespace, optional sign, then the decimal
prefix; none models NaN. -/
def jsParseFloat (s : String) : Option Rat :=
  match s.toList.dropWhile isJsSpace with
  | [] => none
  | c :: r =>
      if c = '-' then (jsParseFloatCore r).map (fun q => -q)
      else if c = '+' then jsParseFloatCore r
      else jsParseFloatCore (c :: r)

/-- parseValorBrasileiro of the CustomerSpreadsheet component (lines 412-436):
empty input gives 0; otherwise clean to digits , . -; without a comma the value
is parsed as-is; with a comma every dot is removed (thousands separators) and
the first comma becomes the decimal point; a NaN result collapses to 0. -/
def parseValorBrasileiro (valor : String) : Rat :=
  if valor = "" then 0
  else
    let valorLimpo := cleanNumericL valor.toList
    if !(valorLimpo.contains ',') then
      (jsParseFloat (String.mk valorLimpo)).getD 0
    else
      let semPontos := valorLimpo.filter (fun c => !(c == '.'))
      (jsParseFloat (String.mk (commaToDotL semPontos))).getD 0

/-- Per-row numeric parsing of parseSpreadsheetToSales (spreadsheetService.ts
lines 194, 197, 203): clean to digits , . - and replace only the FIRST comma by
a dot, with no removal of thousands dots, then parseFloat with NaN collapsing
to 0. -/
def rowParseNumeric (s : String) : Rat :=
  (jsParseFloat (String.mk (commaToDotL (cleanNumericL s.toList)))).getD 0

example : parseValorBrasileiro "1.234,56" = 123456 / 100 := by
  simp [parseValorBrasileiro, cleanNumericL, commaToDotL, jsParseFloat, jsParseFloatCore,
    isJsSpace, digitsVal]
  norm_num

example : parseValorBrasileiro "" = 0 := by
  simp [parseValorBrasileiro]

example : rowParseNumeric "1.234,56" = 1234 / 1000 := by
  simp [rowParseNumeric, cleanNumericL, commaToDotL, jsParseFloat, jsParseFloatCore,
    isJsSpace, digitsVal]
  norm_num

/-- Contiguous-substring containment on character lists. -/
def listHasInfix (big sub : List Char) : Bool :=
  match big with
  | [] => sub.isEmpty
  | _ :: t => sub.isPrefixOf big || listHasInfix t sub

/-- Substring test: JS String.includes, via list infix containment on the
character lists. -/
def strContains (s sub : String) : Bool :=
  listHasInfix s.toList sub.toList

/-- FIELD_MAPPINGS of spreadsheetService.ts lines 46-133, in source insertion
order (the order Object.entries iterates). -/
def FIELD_MAPPINGS : List (String × String) := [
  ("data da venda", "dataVenda"),
  ("data venda", "dataVenda"),
  ("data", "dataVenda"),
  ("data de venda", "dataVenda"),
  ("date", "dataVenda"),
  ("hora da venda", "horaVenda"),
  ("hora venda", "horaVenda"),
  ("hora", "horaVenda"),
  ("hora de venda", "horaVenda"),
  ("time", "horaVenda"),
  ("horário", "horaVenda"),
  ("estabelecimento", "estabelecimento"),
  ("loja", "estabelecimento"),
  ("store", "estabelecimento"),
  ("nome estabelecimento", "estabelecimento"),
  ("cpf/cnpj", "cpfCnpj"),
  ("cpf cnpj", "cpfCnpj"),
  ("cpf", "cpfCnpj"),
  ("cnpj", "cpfCnpj"),
  ("cpf/cnpj do estabelecimento", "cpfCnpj"),
  ("cpf cnpj estabelecimento", "cpfCnpj"),
  ("forma de pagamento", "formaPagamento"),
  ("forma pagamento", "formaPagamento"),
  ("pagamento", "formaPagamento"),
  ("payment", "formaPagamento"),
  ("tipo pagamento", "formaPagamento"),
  ("quantidade total de parcelas", "quantidadeParcelas"),
  ("quantidade parcelas", "quantidadeParcelas"),
  ("parcelas", "quantidadeParcelas"),
  ("qtd parcelas", "quantidadeParcelas"),
  ("total parcelas", "quantidadeParcelas"),
  ("installments", "quantidadeParcelas"),
  ("bandeira", "bandeira"),
  ("bandeira cartão", "bandeira"),
  ("cartão", "bandeira"),
  ("card", "bandeira"),
  ("brand", "bandeira"),
  ("valor bruto", "valorBruto"),
  ("valor", "valorBruto"),
  ("bruto", "valorBruto"),
  ("total", "valorBruto"),
  ("status da venda", "statusVenda"),
  ("status venda", "statusVenda"),
  ("status", "statusVenda"),
  ("status de venda", "statusVenda"),
  ("situação", "statusVenda"),
  ("tipo de lançamento", "tipoLancamento"),
  ("tipo lançamento", "tipoLancamento"),
  ("tipo lancamento", "tipoLancamento"),
  ("lançamento", "tipoLancamento"),
  ("lancamento", "tipoLancamento"),
  ("data do lançamento", "dataLancamento"),
  ("data lançamento", "dataLancamento"),
  ("data lancamento", "dataLancamento"),
  ("data de lançamento", "dataLancamento"),
  ("número da máquina", "numeroMaquina"),
  ("numero da maquina", "numeroMaquina"),
  ("número máquina", "numeroMaquina"),
  ("numero maquina", "numeroMaquina"),
  ("num máquina", "numeroMaquina"),
  ("num maquina", "numeroMaquina"),
  ("máquina", "numeroMaquina"),
  ("maquina", "numeroMaquina")]

/-- Index of the first element satisfying a predicate: JS Array.findIndex, with
none standing for the -1 result that every call site maps to null. -/
def findIndexL (p : String → Bool) : List String → Option Nat
  | [] => none
  | h :: t => if p h then some 0 else (findIndexL p t).map (fun i => i + 1)

/-- Synonym-table pass of findColumnIndex (lines 147-152): iterate the table in
order; for every entry mapped to the requested field, scan the headers for one
whose normalization equals the entry key verbatim; the first hit wins. -/
def mappingLookup (headers : List String) (fieldName : String) :
    List (String × String) → Option Nat
  | [] => none
  | (k, f) :: rest =>
      if f == fieldName then
        match findIndexL (fun h => normalizeColumnName h == k) headers with
        | some i => some i
        | none => mappingLookup headers fieldName rest
      else mappingLookup headers fieldName rest

/-- findColumnIndex of spreadsheetService.ts lines 141-164: (1) first header
whose normalization equals the field name verbatim, then (2) the synonym-table
pass, then (3) first header whose normalization contains, or is contained in,
the normalized field name; none when nothing matches. -/
def findColumnIndex (headers : List String) (fieldName : String) : Option Nat :=
  match findIndexL (fun h => normalizeColumnName h == fieldName) headers with
  | some i => some i
  | none =>
      match mappingLookup headers fieldName FIELD_MAPPINGS with
      | some i => some i
      | none =>
          let normalizedField := normalizeColumnName fieldName
          findIndexL (fun h =>
            strContains (normalizeColumnName h) normalizedField ||
            strContains normalizedField (normalizeColumnName h)) headers

/-- Synonym-table pass as the claim words it: the header is compared
case/accent-insensitively with each synonym key, i.e. both sides normalized. -/
def mappingLookupClaim (headers : List String) (fieldName : String) :
    List (String × String) → Option Nat
  | [] => none
  | (k, f) :: rest =>
      if f == fieldName then
        match findIndexL (fun h => normalizeColumnName h == normalizeColumnName k) headers with
        | some i => some i
        | none => mappingLookupClaim headers fieldName rest
      else mappingLookupClaim headers fieldName rest

/-- Column resolution as claim C8 states it: stage (1) is a case/accent-insensitive
exact match against the canonical field name (both sides normalized), stage (2) a
case/accent-insensitive exact match against the synonym keys, stage (3) substring
containment in either direction between normalized header and field name. -/
def findColumnIndexClaim (headers : List String) (fieldName : String) : Option Nat :=
  match findIndexL (fun h => normalizeColumnName h == normalizeColumnName fieldName) headers with
  | some i => some i
  | none =>
      match mappingLookupClaim headers fieldName FIELD_MAPPINGS with
      | some i => some i
      | none =>
          let normalizedField := normalizeColumnName fieldName
          findIndexL (fun h =>
            strContains (normalizeColumnName h) normalizedField ||
            strContains normalizedField (normalizeColumnName h)) headers

/-- Matching rules that findColumnIndex actually applies to one header: verbatim
field-name equality after normalizing the header only, verbatim synonym-key
equality after normalizing the header only, or two-way substring containment of
the normalized strings. -/
def headerMatchesField (h fieldName : String) : Bool :=
  normalizeColumnName h == fieldName ||
  FIELD_MAPPINGS.any (fun kv => kv.snd == fieldName && normalizeColumnName h == kv.fst) ||
  (strContains (normalizeColumnName h) (normalizeColumnName fieldName) ||
   strContains (normalizeColumnName fieldName) (normalizeColumnName h))

example : findColumnIndex ["Data da Venda", "Valor Bruto", "Bandeira"] "dataVenda" = some 0 := by
  decide

example : findColumnIndex ["Data da Venda", "Valor Bruto", "Bandeira"] "valorBruto" = some 1 := by
  decide

example : findColumnIndex ["xyz"] "dataVenda" = none := by decide

/-- Value of one spreadsheet cell as the services see it: a JS number, a JS
string, or null; an absent key models undefined. -/
inductive Cell where
  | num (q : Rat)
  | str (s : String)
  | nul
deriving DecidableEq

/-- Raw spreadsheet row: the record keyed by header name. -/
abbrev Row := List (String × Cell)

/-- Value of row[h]: none models undefined (key absent). -/
def rowGet (r : Row) (h : String) : Option Cell :=
  match r.find? (fun kv => kv.fst == h) with
  | some kv => some kv.snd
  | none => none

/-- Condition row[h] !== undefined && row[h] !== null && row[h] !== emptystring
used by every accumulation branch of calculateSpreadsheetMetrics. -/
def cellPresent (c : Option Cell) : Bool :=
  match c with
  | none => false
  | some Cell.nul => false
  | some (Cell.str s) => s != ""
  | some (Cell.num _) => true

/-- Sales-count column search (lines 271-290): three passes over the headers. -/
def findQuantidadeHeader (headers : List String) : Option String :=
  match headers.find? (fun h =>
      let n := normalizeColumnName h
      n == "quantidade de vendas" || n == "quantidade vendas" || n == "qtd vendas") with
  | some h => some h
  | none =>
      match headers.find? (fun h =>
          let n := normalizeColumnName h
          strContains n "quantidade" && strContains n "venda") with
      | some h => some h
      | none =>
          headers.find? (fun h =>
            let n := normalizeColumnName h
            n == "quantidade" || n == "qtd")

/-- Gross-amount column search (lines 293-310). -/
def findValorBrutoHeader (headers : List String) : Option String :=
  match headers.find? (fun h => normalizeColumnName h == "valor bruto") with
  | some h => some h
  | none =>
      match headers.find? (fun h =>
          let n := normalizeColumnName h
          strContains n "valor" && strContains n "bruto" && !(strContains n "liquido")) with
      | some h => some h
      | none =>
          headers.find? (fun h =>
            let n := normalizeColumnName h
            strContains n "valor" && !(strContains n "liquido") && !(strContains n "taxa"))

/-- Net-amount column search (lines 313-318); the comparison with the
accented spelling can never hold after normalization, it is kept verbatim. -/
def findValorLiquidoHeader (headers : List String) : Option String :=
  headers.find? (fun h =>
    let n := normalizeColumnName h
    n == "valor liquido" || n == "valor líquido" || (strContains n "valor" && strContains n "liquido"))

/-- Fee column search (lines 321-339): three passes. -/
def findTaxaHeader (headers : List String) : Option String :=
  match headers.find? (fun h =>
      let n := normalizeColumnName h
      n == "taxa total" || (strContains n "taxa" && strContains n "total")) with
  | some h => some h
  | none =>
      match headers.find? (fun h => normalizeColumnName h == "taxa") with
      | some h => some h
      | none => headers.find? (fun h => strContains (normalizeColumnName h) "taxa")

/-- Numeric reading of a sales-count cell (lines 346-357): numbers pass through;
strings are trimmed, stripped to digits , . -, the first comma becomes a dot,
then parseFloat; none models NaN. -/
def parseQtdCell : Cell → Option Rat
  | Cell.num q => some q
  | Cell.str s => jsParseFloat (String.mk (commaToDotL (cleanNumericL (trimL s.toList))))
  | Cell.nul => none

/-- Character filter of the regexp class removing R, the dollar sign and
whitespace (the replace applied before currency parsing at lines 378-386). -/
def removeRSL (l : List Char) : List Char :=
  l.filter (fun c => !(c = 'R' || c = '$' || isJsSpace c))

/-- Numeric reading of a gross or net amount cell (lines 366-388): numbers pass
through; strings are trimmed, then parsed by Brazilian/US format detection on
the trimmed text: with both comma and dot, strip currency marks, drop all dots
and turn the first comma into the decimal point; with only a comma, strip marks
and turn it into the decimal point; otherwise strip marks and parse as-is. -/
def parseValorCell : Cell → Option Rat
  | Cell.num q => some q
  | Cell.str s =>
      let t := trimL s.toList
      if t.contains ',' && t.contains '.' then
        jsParseFloat (String.mk (commaToDotL ((removeRSL t).filter (fun c => !(c == '.')))))
      else if t.contains ',' then
        jsParseFloat (String.mk (commaToDotL (removeRSL t)))
      else
        jsParseFloat (String.mk (removeRSL t))
  | Cell.nul => none

/-- Character filter of the regexp class removing the percent sign and
whitespace (fee parsing, line 455). -/
def removePctL (l : List Char) : List Char :=
  l.filter (fun c => !(c = '%' || isJsSpace c))

/-- Numeric reading of a fee cell (lines 448-457). -/
def parseTaxaCell : Cell → Option Rat
  | Cell.num q => some q
  | Cell.str s => jsParseFloat (String.mk (commaToDotL (removePctL (trimL s.toList))))
  | Cell.nul => none

/-- Accumulation of one metric column over all rows (the forEach of lines
343-429 accumulates each located column independently): present cells are
parsed and every non-NaN value is added, zero and negative included. -/
def sumColumn (data : List Row) (header : Option String) (parse : Cell → Option Rat) : Rat :=
  match header with
  | none => 0
  | some h =>
      data.foldl (fun acc row =>
        match rowGet row h with
        | none => acc
        | some c =>
            if cellPresent (some c) then
              match parse c with
              | some v => acc + v
              | none => acc
            else acc) 0

/-- Row test of the linhasComDados fallback (lines 485-487): some value of the
row object is neither null, undefined nor the empty string. -/
def rowHasData (r : Row) : Bool :=
  r.any (fun kv =>
    match kv.snd with
    | Cell.nul => false
    | Cell.str s => s != ""
    | Cell.num _ => true)

/-- Fee values collected from the fee column (lines 442-463): present cells
whose parse is not NaN AND strictly positive. -/
def collectTaxas (data : List Row) (th : String) : List Rat :=
  data.filterMap (fun row =>
    match rowGet row th with
    | none => none
    | some c =>
        if cellPresent (some c) then
          match parseTaxaCell c with
          | some t => if 0 < t then some t else none
          | none => none
        else none)

/-- Absolute value used by the all-equal tolerance test. -/
def ratAbs (q : Rat) : Rat := if q < 0 then -q else q

/-- Reduction of a list of fee values (lines 464-469): first value when all
values differ from it by less than 0.01, arithmetic mean otherwise; 0 when the
list is empty. -/
def taxaMediaOf (taxas : List Rat) : Rat :=
  match taxas with
  | [] => 0
  | t0 :: _ =>
      if taxas.all (fun t => ratAbs (t - t0) < 1 / 100) then t0
      else (taxas.foldl (fun a b => a + b) 0) / (taxas.length : Rat)

/-- Core metrics of calculateSpreadsheetMetrics (lines 247-546) restricted to
the fields the claims are about: totalLinhas, totalColunas, totalVendas,
valorBrutoTotal, valorLiquidoTotal and taxaMedia. The categorical counters
(unique merchants, payment methods, brands, installment average, status
counts) touch none of these fields and are out of scope of every claim. -/
structure MetricsCore where
  totalLinhas : Nat
  totalColunas : Nat
  totalVendas : Rat
  valorBrutoTotal : Rat
  valorLiquidoTotal : Rat
  taxaMedia : Rat
deriving DecidableEq

/-- calculateSpreadsheetMetrics, in source order: locate the columns, accumulate
the sums over all rows, apply the count-of-rows fallback when no count column
was found (line 432), resolve the fee rate with the administrator rate first
(lines 437-471), re-derive the net total when the column is absent or summed to
zero (lines 476-481), and finally re-apply the row-count fallback whenever the
count is still zero (lines 484-489), even when a count column was found. -/
def calculateMetricsCore (customerTax : Option Rat) (headers : List String) (data : List Row) :
    MetricsCore :=
  let quantidadeHeader := findQuantidadeHeader headers
  let valorBrutoHeader := findValorBrutoHeader headers
  let valorLiquidoHeader := findValorLiquidoHeader headers
  let taxaHeader := findTaxaHeader headers
  let totalVendas0 := sumColumn data quantidadeHeader parseQtdCell
  let valorBrutoTotal := sumColumn data valorBrutoHeader parseValorCell
  let valorLiquidoTotal0 := sumColumn data valorLiquidoHeader parseValorCell
  let totalVendas1 :=
    if totalVendas0 = 0 ∧ quantidadeHeader = none then (data.length : Rat) else totalVendas0
  let taxaMedia :=
    match customerTax with
    | some t => t
    | none =>
        match taxaHeader with
        | none => 0
        | some th => taxaMediaOf (collectTaxas data th)
  let valorLiquidoTotal :=
    if valorLiquidoHeader = none ∨ valorLiquidoTotal0 = 0 then
      (if 0 < valorBrutoTotal ∧ 0 < taxaMedia then
        valorBrutoTotal - valorBrutoTotal * (taxaMedia / 100)
      else valorLiquidoTotal0)
    else valorLiquidoTotal0
  let totalVendas :=
    if totalVendas1 = 0 then ((data.filter rowHasData).length : Rat) else totalVendas1
  { totalLinhas := data.length
    totalColunas := headers.length
    totalVendas := totalVendas
    valorBrutoTotal := valorBrutoTotal
    valorLiquidoTotal := valorLiquidoTotal
    taxaMedia := taxaMedia }

/-- Fee-rate rule exactly as claim C7 words it: every fee value read from the
column participates in the all-equal test and in the mean, zeroes included. -/
def taxaMediaClaimRule (customerTax : Option Rat) (headers : List String) (data : List Row) :
    Rat :=
  match customerTax with
  | some t => t
  | none =>
      match findTaxaHeader headers with
      | none => 0
      | some th =>
          taxaMediaOf (data.filterMap (fun row =>
            match rowGet row th with
            | none => none
            | some c => if cellPresent (some c) then parseTaxaCell c else none))

/-- Amended fee-rate rule: parse every present fee cell, then keep the strictly
positive values only, and reduce those with the first-if-all-equal-else-mean
rule; the customer rate dominates and an absent column (or no positive value)
leaves the rate at 0. -/
def taxaMediaAmendedRule (customerTax : Option Rat) (headers : List String) (data : List Row) :
    Rat :=
  match customerTax with
  | some t => t
  | none =>
      match findTaxaHeader headers with
      | none => 0
      | some th =>
          taxaMediaOf ((data.filterMap (fun row =>
            match rowGet row th with
            | none => none
            | some c => if cellPresent (some c) then parseTaxaCell c else none)).filter
              (fun t => decide (0 < t)))

/-- Serial day number of a Gregorian calendar date, with day 0 at 1970-01-01
(the civil-from-days algorithm used by every date library; floor division). -/
def daysFromCivil (y m d : Int) : Int :=
  let y2 := if m ≤ 2 then y - 1 else y
  let era := Int.fdiv y2 400
  let yoe := y2 - era * 400
  let mp := if 2 < m then m - 3 else m + 9
  let doy := Int.fdiv (153 * mp + 2) 5 + d - 1
  let doe := yoe * 365 + Int.fdiv yoe 4 - Int.fdiv yoe 100 + doy
  era * 146097 + doe - 719468

/-- Inverse of daysFromCivil: the Gregorian date of a serial day number. -/
def civilFromDays (z : Int) : Int × Int × Int :=
  let z2 := z + 719468
  let era := Int.fdiv z2 146097
  let doe := z2 - era * 146097
  let yoe := Int.fdiv (doe - Int.fdiv doe 1460 + Int.fdiv doe 36524 - Int.fdiv doe 146096) 365
  let y := yoe + era * 400
  let doy := doe - (365 * yoe + Int.fdiv yoe 4 - Int.fdiv yoe 100)
  let mp := Int.fdiv (5 * doy + 2) 153
  let d := doy - Int.fdiv (153 * mp + 2) 5 + 1
  let m := if mp < 10 then mp + 3 else mp - 9
  (if m ≤ 2 then y + 1 else y, m, d)

/-- Numeric value of a fixed-width digit group, none when some character is not
a digit. -/
def digitGroup (l : List Char) : Option Nat :=
  if l.all Char.isDigit then some (digitsVal l) else none

/-- Time-of-day suffix accepted after the date part of an ECMAScript date-time
string with UTC designator: THH:MM[:SS[.sss]]Z; the result is the minute of the
day (the sources only ever write whole minutes). -/
def parseTimePartZ (l : List Char) : Option Int :=
  match l with
  | 'T' :: h1 :: h2 :: ':' :: m1 :: m2 :: rest =>
      match digitGroup [h1, h2], digitGroup [m1, m2] with
      | some hh, some mm =>
          let minutes : Int := (hh : Int) * 60 + (mm : Int)
          match rest with
          | ['Z'] => if hh < 24 ∧ mm < 60 then some minutes else none
          | ':' :: s1 :: s2 :: rest2 =>
              match digitGroup [s1, s2] with
              | some ss =>
                  if hh < 24 ∧ mm < 60 ∧ ss < 60 then
                    match rest2 with
                    | ['Z'] => some minutes
                    | '.' :: f1 :: f2 :: f3 :: ['Z'] =>
                        if ([f1, f2, f3].all Char.isDigit) then some minutes else none
                    | _ => none
                  else none
              | none => none
          | _ => none
      | _, _ => none
  | _ => none

/-- Minimal model of the ECMAScript Date parser restricted to the string shapes
the services produce: YYYY, YYYY-MM, YYYY-MM-DD (date-only forms, taken as
midnight UTC) each optionally followed by a THH:MM[:SS[.sss]]Z time part.
The result is the UTC epoch minute; none models an Invalid Date. Local-time
forms (no Z) never occur in the stored strings and are not modelled. -/
def parseEcmaDateUTC (s : String) : Option Int :=
  match s.toList with
  | y1 :: y2 :: y3 :: y4 :: rest =>
      match digitGroup [y1, y2, y3, y4] with
      | none => none
      | some yy =>
          let withDate := fun (mm dd : Nat) (tail : List Char) =>
            if 1 ≤ mm ∧ mm ≤ 12 ∧ 1 ≤ dd ∧ dd ≤ 31 then
              match tail with
              | [] => some (daysFromCivil (yy : Int) (mm : Int) (dd : Int) * 1440)
              | l =>
                  match parseTimePartZ l with
                  | some mins => some (daysFromCivil (yy : Int) (mm : Int) (dd : Int) * 1440 + mins)
                  | none => none
            else none
          match rest with
          | [] => some (daysFromCivil (yy : Int) 1 1 * 1440)
          | '-' :: m1 :: m2 :: rest2 =>
              match digitGroup [m1, m2] with
              | none => none
              | some mm =>
                  match rest2 with
                  | [] =>
                      if 1 ≤ mm ∧ mm ≤ 12 then some (daysFromCivil (yy : Int) (mm : Int) 1 * 1440)
                      else none
                  | '-' :: d1 :: d2 :: rest3 =>
                      match digitGroup [d1, d2] with
                      | none => none
                      | some dd => withDate mm dd rest3
                  | l =>
                      if 1 ≤ mm ∧ mm ≤ 12 then
                        match parseTimePartZ l with
                        | some mins => some (daysFromCivil (yy : Int) (mm : Int) 1 * 1440 + mins)
                        | none => none
                      else none
          | l =>
              match parseTimePartZ l with
              | some mins => some (daysFromCivil (yy : Int) 1 1 * 1440 + mins)
              | none => none
  | _ => none

/-- Decimal string of an integer (used by the YYYY-MM-DD formatting; only
non-negative values occur). -/
def intToDec (i : Int) : String :=
  if i < 0 then "-" ++ (Nat.repr i.natAbs) else Nat.repr i.natAbs

/-- String(x).padStart(2, zero) of the date components. -/
def pad2 (i : Int) : String :=
  let s := intToDec i
  if s.length < 2 then "0" ++ s else s

/-- Local YYYY-MM-DD of an epoch minute for a reader whose local timezone is tz
minutes east of UTC (the composite getFullYear/getMonth/getDate with padding
used throughout the sources). -/
def formatLocalYMD (tz : Int) (epochMin : Int) : String :=
  match civilFromDays (Int.fdiv (epochMin + tz) 1440) with
  | (y, m, d) => intToDec y ++ "-" ++ pad2 m ++ "-" ++ pad2 d

/-- Exact test of the anchored regexp for four digits, dash, two digits, dash,
two digits. -/
def isIsoDateExact (s : String) : Bool :=
  match s.toList with
  | [a, b, c, d, e, f, g, h2, i, j] =>
      a.isDigit && b.isDigit && c.isDigit && d.isDigit && e == '-' &&
      f.isDigit && g.isDigit && h2 == '-' && i.isDigit && j.isDigit
  | _ => false

/-- Start-anchored (not end-anchored) test of the same date pattern, used by the
capture regexp of transferToDb. -/
def startsWithIsoDate (s : String) : Bool :=
  match s.toList with
  | a :: b :: c :: d :: e :: f :: g :: h2 :: i :: j :: _ =>
      a.isDigit && b.isDigit && c.isDigit && d.isDigit && e == '-' &&
      f.isDigit && g.isDigit && h2 == '-' && i.isDigit && j.isDigit
  | _ => false

/-- normalizeDate of transferService.ts lines 8-43, evaluated for a reader whose
local timezone offset is tz minutes east of UTC: empty input gives the empty
string; a string that is exactly YYYY-MM-DD is returned unchanged; anything
else goes through the Date parser and comes back as the LOCAL calendar day of
the parsed instant; an unparseable string gives the empty string. -/
def normalizeDateAt (tz : Int) (dateString : String) : String :=
  if String.mk (trimL dateString.toList) = "" then ""
  else if isIsoDateExact dateString then dateString
  else
    match parseEcmaDateUTC dateString with
    | none => ""
    | some em => formatLocalYMD tz em

/-- Serialization of dataEnvio inside transferToDb (transferService.ts lines
62-88): a non-blank value matching the date pattern is stored as dateMatch[1]
followed by T12:00:00.000Z, and dateMatch[1] is the FIRST CAPTURE GROUP of the
regexp — the four year digits, not the whole date; anything else is stored as
null (none). -/
def serializeDataEnvio (dataEnvio : String) : Option String :=
  if String.mk (trimL dataEnvio.toList) = "" then none
  else if startsWithIsoDate dataEnvio then
    some (String.mk (dataEnvio.toList.take 4) ++ "T12:00:00.000Z")
  else none

/-- Serialization the claim (and the comment in the source) intends: the whole
matched date followed by the noon-UTC time part. -/
def serializeDataEnvioIntended (dataEnvio : String) : Option String :=
  if String.mk (trimL dataEnvio.toList) = "" then none
  else if startsWithIsoDate dataEnvio then
    some (String.mk (dataEnvio.toList.take 10) ++ "T12:00:00.000Z")
  else none

example : serializeDataEnvio "2024-05-15" = some "2024T12:00:00.000Z" := by decide
example : parseEcmaDateUTC "2024T12:00:00.000Z" = some (daysFromCivil 2024 1 1 * 1440 + 720) := by
  decide
example : normalizeDateAt 0 "2024T12:00:00.000Z" = "2024-01-01" := by decide
example : normalizeDateAt (-180) "2024-05-15T12:00:00.000Z" = "2024-05-15" := by decide

/-- Spreadsheet type: monthly (the default) or daily. -/
inductive SType where
  | monthly
  | daily
deriving DecidableEq

/-- Snapshot persisted by saveSpreadsheet, restricted to the fields the save and
reconciliation logic reads (data payload fields kept for the metrics). All
fields are already in the normalized form saveSpreadsheet establishes before
persisting: referenceMonth filled from the upload date when absent, type
defaulted to monthly. -/
structure Snapshot where
  id : String
  customerId : String
  terminalId : Option String
  fileName : String
  uploadedAt : String
  referenceMonth : String
  referenceDate : Option String
  type : SType
  headers : List String
  data : List Row
deriving DecidableEq

/-- Transfer record as the application sees it after dbToTransfer: a null
periodo, customerId or customerName reads back as the empty string. -/
structure Transfer where
  id : String
  periodo : String
  valorBruto : Rat
  taxas : Rat
  valorLiquido : Rat
  status : String
  dataEnvio : String
  customerId : String
  customerName : String
deriving DecidableEq

/-- Administrator card-value override (getCustomerCardValues): every field
optional, the fee field is an absolute currency amount. -/
structure CardValues where
  quantidadeVendas : Option Rat
  valorBruto : Option Rat
  taxa : Option Rat
  valorLiquido : Option Rat
deriving DecidableEq

/-- Month names of the periodo formatting (lines 1123-1124). -/
def monthNames : List String :=
  ["Janeiro", "Fevereiro", "Março", "Abril", "Maio", "Junho",
   "Julho", "Agosto", "Setembro", "Outubro", "Novembro", "Dezembro"]

/-- Split of a character list at a separator character (JS String.split with a
one-character separator). -/
def splitAtChar (sep : Char) : List Char → List (List Char)
  | [] => [[]]
  | c :: cs =>
      if c = sep then [] :: splitAtChar sep cs
      else
        match splitAtChar sep cs with
        | [] => [[c]]
        | p :: ps => (c :: p) :: ps

/-- JS parseInt restricted to decimal: skip whitespace, optional sign, leading
digits; none models NaN. -/
def jsParseInt (s : String) : Option Int :=
  match s.toList.dropWhile isJsSpace with
  | [] => none
  | c :: r =>
      if c = '-' then
        (let d := r.takeWhile Char.isDigit
         if d.isEmpty then none else some (-(digitsVal d : Int)))
      else if c = '+' then
        (let d := r.takeWhile Char.isDigit
         if d.isEmpty then none else some ((digitsVal d : Int)))
      else
        (let d := (c :: r).takeWhile Char.isDigit
         if d.isEmpty then none else some ((digitsVal d : Int)))

/-- Monthly periodo label (lines 1121-1126 and 1290-1295): split the reference
month on the dash, index the month-name table with parseInt(month) - 1 — an
out-of-range or non-numeric index renders as the string undefined, as the JS
template literal would. -/
def monthlyPeriodo (referenceMonth : String) : String :=
  let parts := splitAtChar '-' referenceMonth.toList
  let year := String.mk ((parts.get? 0).getD [])
  let monthStr := String.mk ((parts.get? 1).getD [])
  let name :=
    match jsParseInt monthStr with
    | some m =>
        if 1 ≤ m ∧ m ≤ 12 then (monthNames.get? (m - 1).toNat).getD "undefined"
        else "undefined"
    | none => "undefined"
  name ++ "/" ++ year

/-- Daily periodo label from an exact YYYY-MM-DD reference date (lines
1114-1116 and 1277-1279): day/month/year. -/
def dailyPeriodoIso (dateStr : String) : String :=
  let parts := splitAtChar '-' dateStr.toList
  String.mk ((parts.get? 2).getD []) ++ "/" ++ String.mk ((parts.get? 1).getD []) ++ "/" ++
    String.mk ((parts.get? 0).getD [])

/-- toLocaleDateString for pt-BR of new Date(s), at local offset tz: the local
calendar day rendered dd/mm/yyyy; an Invalid Date renders as the literal JS
string. This branch only fires for reference dates that are not exact
YYYY-MM-DD strings; the reconciliation theorems depend only on it being a
function of its inputs. -/
def jsLocaleDatePtBR (tz : Int) (s : String) : String :=
  match parseEcmaDateUTC s with
  | none => "Invalid Date"
  | some em =>
      match civilFromDays (Int.fdiv (em + tz) 1440) with
      | (y, m, d) => pad2 d ++ "/" ++ pad2 m ++ "/" ++ intToDec y

/-- periodoParaBusca of createTransferFromSpreadsheet (lines 1110-1126): the
label is computed for daily snapshots from the reference date (exact ISO dates
formatted directly, others through the locale), otherwise from the reference
month when truthy; none models undefined. The creation branch (lines 1266-1305)
recomputes the label with the same expressions. -/
def periodoParaBusca (tz : Int) (sp : Snapshot) : Option String :=
  match sp.type, sp.referenceDate with
  | SType.daily, some rd =>
      if rd ≠ "" then
        (if isIsoDateExact (String.mk (trimL rd.toList)) then
          some (dailyPeriodoIso (String.mk (trimL rd.toList)))
        else some (jsLocaleDatePtBR tz rd))
      else if sp.referenceMonth ≠ "" then some (monthlyPeriodo sp.referenceMonth) else none
  | _, _ =>
      if sp.referenceMonth ≠ "" then some (monthlyPeriodo sp.referenceMonth) else none

/-- dataEnvio of the monthly creation branch (lines 1296-1304): the local date
of the upload timestamp, empty when absent. -/
def monthlyDataEnvio (tz : Int) (sp : Snapshot) : String :=
  if sp.referenceMonth ≠ "" ∧ sp.uploadedAt ≠ "" then
    match parseEcmaDateUTC sp.uploadedAt with
    | none => "NaN-NaN-NaN"
    | some em => formatLocalYMD tz em
  else ""

/-- dataEnvio stored on creation (lines 1267-1304): the trimmed reference date
for exact-ISO daily snapshots, its local date otherwise; for monthly snapshots
the local date of the upload timestamp, or the empty string when absent. -/
def dataEnvioForCreate (tz : Int) (sp : Snapshot) : String :=
  match sp.type, sp.referenceDate with
  | SType.daily, some rd =>
      if rd ≠ "" then
        (if isIsoDateExact (String.mk (trimL rd.toList)) then String.mk (trimL rd.toList)
        else
          match parseEcmaDateUTC rd with
          | none => "NaN-NaN-NaN"
          | some em => formatLocalYMD tz em)
      else monthlyDataEnvio tz sp
  | _, _ => monthlyDataEnvio tz sp

/-- cv?.taxa of the override. -/
def cvTaxa (cv : Option CardValues) : Option Rat := cv.bind (fun c => c.taxa)

/-- cv?.valorBruto of the override. -/
def cvValorBruto (cv : Option CardValues) : Option Rat := cv.bind (fun c => c.valorBruto)

/-- cv?.valorLiquido of the override. -/
def cvValorLiquido (cv : Option CardValues) : Option Rat := cv.bind (fun c => c.valorLiquido)

/-- Test o !== undefined && o > 0 on an optional number. -/
def posOpt (o : Option Rat) : Bool :=
  match o with
  | some t => decide (0 < t)
  | none => false

/-- Fee amount of the reconciled entry (lines 1167-1176 and 1234-1247): the
override fee when positive, else 5.10 percent of a positive override gross,
else the sheet rate applied to the computed gross, else 5.10 percent of the
computed gross. -/
def computeTaxas (cv : Option CardValues) (m : MetricsCore) : Rat :=
  if posOpt (cvTaxa cv) then (cvTaxa cv).getD 0
  else if posOpt (cvValorBruto cv) then ((cvValorBruto cv).getD 0) * (51 / 1000)
  else if 0 < m.taxaMedia then m.valorBrutoTotal * (m.taxaMedia / 100)
  else m.valorBrutoTotal * (51 / 1000)

/-- Net amount of the reconciled entry (lines 1179-1182 and 1250-1253): the
override net when present and positive, else gross minus fees. -/
def computeValorLiquido (cv : Option CardValues) (valorBruto taxas : Rat) : Rat :=
  match cvValorLiquido cv with
  | some vl => if vl ≤ 0 then valorBruto - taxas else vl
  | none => valorBruto - taxas

/-- Count of ledger entries for one (customerId, periodo) key. -/
def keyCount (ledger : List Transfer) (c p : String) : Nat :=
  (ledger.filter (fun t => t.customerId == c && t.periodo == p)).length

/-- Round trip of the dataEnvio field through one store write and the next
read: transferToDb serializes the written record's dataEnvio into data_envio
with the dateMatch[1] year-group serialization (transferService.ts lines
62-77), and the dbToTransfer of the next read runs normalizeDate on the stored
string, here at reader offset tz; a null stored value reads back as the empty
string. -/
def storeDataEnvio (tz : Int) (dataEnvio : String) : String :=
  match serializeDataEnvio dataEnvio with
  | some st => normalizeDateAt tz st
  | none => ""

/-- Round trip of the status field: transferToDb stores status || 'pendente'
and dbToTransfer reads the stored value back (defaulting again on null). -/
def storeStatus (st : String) : String := if st = "" then "pendente" else st

/-- createTransferFromSpreadsheet of spreadsheetService.ts lines 1107-1351,
over a ledger modelled as the dbToTransfer views (at reader offset tz) of the
transfer rows the store holds. The update branch calls updateTransfer
(transferService.ts lines 169-201), which merges the three-field monetary
update map into the current record and re-serializes the WHOLE merged record
through transferToDb: the persisted row's data_envio and status pass through
the serialization round trip even though the update map names only the
monetary fields — the other string fields (periodo, customerId, customerName)
round-trip unchanged. The creation branch goes through createTransfer and the
same transferToDb serialization. The metrics are recomputed from the snapshot
with the embedded aggregator; overrides, the customer fee rate and the
customer name are external inputs; freshId is the generated id of a created
entry. -/
def createTransferFromSpreadsheet (tz : Int) (ledger : List Transfer) (sp : Snapshot)
    (cv : Option CardValues) (customerTax : Option Rat) (customerName : String)
    (freshId : String) : List Transfer :=
  let pb := periodoParaBusca tz sp
  let existing := (ledger.filter (fun t => t.customerId == sp.customerId)).find? (fun t =>
    t.customerId == sp.customerId &&
    (match pb with
     | some p => t.periodo == p
     | none => false))
  let m := calculateMetricsCore customerTax sp.headers sp.data
  let valorBruto := (cvValorBruto cv).getD m.valorBrutoTotal
  let taxas := computeTaxas cv m
  let valorLiquido := computeValorLiquido cv valorBruto taxas
  match existing with
  | some ex =>
      if 0 < valorBruto then
        ledger.map (fun t =>
          if t.id == ex.id then
            { t with
              valorBruto := valorBruto
              taxas := taxas
              valorLiquido := valorLiquido
              status := storeStatus t.status
              dataEnvio := storeDataEnvio tz t.dataEnvio }
          else t)
      else ledger
  | none =>
      if valorBruto ≤ 0 then ledger
      else
        ledger ++ [{ id := freshId
                     periodo := pb.getD ""
                     valorBruto := valorBruto
                     taxas := taxas
                     valorLiquido := valorLiquido
                     status := "pendente"
                     dataEnvio := storeDataEnvio tz (dataEnvioForCreate tz sp)
                     customerId := sp.customerId
                     customerName := customerName }]

/-- Stored spreadsheet row of the customer_spreadsheets table, restricted to
the columns the save lookup touches. -/
structure SRow where
  id : String
  customerId : String
  terminalId : Option String
  referenceMonth : String
  referenceDate : Option String
  type : SType
  fileName : String
deriving DecidableEq

/-- Coercion terminalId || null of the client: an empty string becomes null. -/
def jsOrNull (o : Option String) : Option String :=
  match o with
  | some s => if s = "" then none else some s
  | none => none

/-- Equality filter of the PostgREST eq operator on a nullable column: the
rest of the repository tests null columns with the is operator because an eq
comparison against null never matches a NULL column (SQL equality); comparing
with a present value is plain equality. -/
def sqlEq (col : Option String) (v : Option String) : Bool :=
  match v with
  | some s => col == some s
  | none => false

/-- maybeSingle over the filtered rows: one row gives it, zero rows give null;
several rows raise an error that the destructuring of saveSpreadsheet discards,
leaving existing undefined. -/
def maybeSingle (l : List SRow) : Option SRow :=
  match l with
  | [x] => some x
  | _ => none

/-- Existing-snapshot lookup of the monthly save branch (lines 1038-1045):
eq on customer_id, eq on terminal_id against terminalId || null, eq on
reference_month and type monthly, then maybeSingle. -/
def findExistingMonthly (store : List SRow) (c : String) (t : Option String) (m : String) :
    Option SRow :=
  maybeSingle (store.filter (fun r =>
    r.customerId == c && sqlEq r.terminalId (jsOrNull t) &&
    r.referenceMonth == m && r.type == SType.monthly))

/-- Persistence step of saveSpreadsheet (lines 1035-1079): monthly snapshots
update the row found by the existing-lookup (the update payload carries the
newly generated id) or insert; daily snapshots always insert. -/
def saveSpreadsheetStore (store : List SRow) (sp : Snapshot) (freshId : String) : List SRow :=
  let row : SRow :=
    { id := freshId
      customerId := sp.customerId
      terminalId := jsOrNull sp.terminalId
      referenceMonth := sp.referenceMonth
      referenceDate := sp.referenceDate
      type := sp.type
      fileName := sp.fileName }
  match sp.type with
  | SType.monthly =>
      match findExistingMonthly store sp.customerId sp.terminalId sp.referenceMonth with
      | some ex => store.map (fun r => if r.id == ex.id then row else r)
      | none => store ++ [row]
  | SType.daily => store ++ [row]

/-- Count of persisted monthly snapshots for one (customerId, terminalId,
referenceMonth) key — the key of the claimed invariant, with null terminals
compared as equal. -/
def countMonthlySnapshots (store : List SRow) (c : String) (t : Option String) (m : String) :
    Nat :=
  (store.filter (fun r =>
    r.customerId == c && r.terminalId == t && r.referenceMonth == m &&
    r.type == SType.monthly)).length

/-- saveSpreadsheet with its surrounding error flow (lines 1000-1104): a
persistence error of the insert/update phase is rethrown; afterwards
createTransferFromSpreadsheet runs inside its own try/catch whose failure is
only logged. The reconciliation step performs external calls (ledger read,
override read, customer read, ledger write), so its outcome — the new ledger
on success, or an error — is an input of the model. -/
def saveWithReconcile (store : List SRow) (ledger : List Transfer) (sp : Snapshot)
    (freshId : String) (persistError : Option String)
    (reconcileOutcome : Except String (List Transfer)) :
    Except String (List SRow × List Transfer) :=
  match persistError with
  | some e => Except.error e
  | none =>
      let store2 := saveSpreadsheetStore store sp freshId
      match reconcileOutcome with
      | Except.ok l2 => Except.ok (store2, l2)
      | Except.error _ => Except.ok (store2, ledger)

example : monthlyPeriodo "2024-01" = "Janeiro/2024" := by decide

/-- Selection-relevant state of one open CustomerSpreadsheet view: the React
state variables and the refs of lines 370-409. content stands for the
currently displayed snapshot (setSpreadsheetData). -/
structure SelState where
  spreadsheetType : SType
  selectedMonth : String
  selectedDay : String
  availableMonths : List String
  availableDays : List String
  content : Option String
  hasUserInteracted : Bool
  lockSelection : Bool
  userSelectedMonth : Bool
  userSelectedDay : Bool
  isInitialLoad : Bool
  lastSelectedMonth : String
  lastSelectedDay : String
  monthsLoaded : Bool
  daysLoaded : Bool
deriving DecidableEq

/-- Lexicographic order on character lists. -/
def charListLe : List Char → List Char → Bool
  | [], _ => true
  | _ :: _, [] => false
  | a :: as, b :: bs =>
      if a = b then charListLe as bs
      else decide (a < b)

/-- The ascending (a, b) => a.localeCompare(b) comparator of the refresh
effects, modelled as code-unit lexicographic order — the two coincide on the
digit-and-dash period keys the component sorts. -/
def strLe (a b : String) : Bool := charListLe a.toList b.toList

/-- Insertion into a sorted list of strings. -/
def insertSorted (x : String) : List String → List String
  | [] => [x]
  | y :: ys => if strLe x y then x :: y :: ys else y :: insertSorted x ys

/-- Array.prototype.sort with the localeCompare comparator: ascending, and the
source mutates the fetched array in place, so every use after the sort line
sees this list. -/
def sortStrings (l : List String) : List String :=
  l.foldr insertSorted []

/-- Changed-list test of the refresh effects: the fetched list and the current
one are sorted and joined before comparison, so two lists holding the same
periods in a different order count as unchanged (the period strings contain no
comma, making the join comparison the same as sorted-list equality). -/
def sortedEquiv (a b : List String) : Bool :=
  sortStrings a == sortStrings b

/-- Months-refresh step: the useEffect of lines 489-558 run to completion with
the fetch result months. The changed-list comparison sorts the fetched array
IN PLACE (Array.prototype.sort mutates; the ascending localeCompare sort of
lines 495 and 516 runs before every later use), so setAvailableMonths stores
the ascending list and the auto-selected entry months[0] is the SMALLEST — the
oldest — month. Once hasUserInteractedRef is set the effect only refreshes the
availableMonths list and returns; a locked selection returns untouched;
otherwise the list is refreshed, the monthly branch clears the days and the
oldest month is auto-selected only on the very first load (empty selection
while isInitialLoadRef is still set). -/
def refreshMonths (s : SelState) (months : List String) : SelState :=
  let ms := sortStrings months
  if s.hasUserInteracted then
    if sortedEquiv months s.availableMonths then s else { s with availableMonths := ms }
  else if s.lockSelection then s
  else
    let s1 := { s with
      monthsLoaded := true
      availableMonths := if sortedEquiv months s.availableMonths then s.availableMonths
        else ms }
    if s1.spreadsheetType = SType.monthly then
      let s2 :=
        if s1.lockSelection = false ∧ s1.hasUserInteracted = false then
          { s1 with
            availableDays := []
            selectedDay := if s1.userSelectedDay = false then "" else s1.selectedDay }
        else s1
      if ms ≠ [] ∧ s2.lockSelection = false ∧ s2.hasUserInteracted = false ∧
          s2.selectedMonth = "" ∧ s2.isInitialLoad = true then
        { s2 with
          selectedMonth := ms.headD ""
          lastSelectedMonth := ms.headD ""
          isInitialLoad := false }
      else s2
    else
      if ms ≠ [] ∧ s1.lockSelection = false ∧ s1.hasUserInteracted = false ∧
          s1.selectedMonth = "" ∧ s1.isInitialLoad = true then
        { s1 with
          selectedMonth := ms.headD ""
          lastSelectedMonth := ms.headD ""
          isInitialLoad := false }
      else s1

/-- Days-refresh step: the useEffect of lines 561-638 run to completion with the
fetch result days. The ascending in-place sort of the changed-list comparison
(lines 568, 598 and 608) runs before every setAvailableDays, so the stored
days list is ascending. Under hasUserInteractedRef only the availableDays list
may be refreshed; under a lock nothing happens; otherwise the list is refreshed
for daily views with a selected month (the re-checked inner guard kept
verbatim), and cleared for daily views without one. The effect never writes
selectedDay. -/
def refreshDays (s : SelState) (days : List String) : SelState :=
  let ds := sortStrings days
  if s.hasUserInteracted then
    if s.spreadsheetType = SType.daily ∧ s.selectedMonth ≠ "" then
      (if sortedEquiv days s.availableDays then s else { s with availableDays := ds })
    else s
  else if s.lockSelection then s
  else if s.spreadsheetType = SType.daily ∧ s.selectedMonth ≠ "" then
    let s1 := { s with daysLoaded := true }
    if s1.lockSelection = true ∨ s1.hasUserInteracted = true then
      (if sortedEquiv days s1.availableDays then s1 else { s1 with availableDays := ds })
    else if sortedEquiv days s1.availableDays then s1
    else { s1 with availableDays := ds }
  else if s.spreadsheetType = SType.daily ∧ s.selectedMonth = "" then
    (if s.lockSelection = false ∧ s.hasUserInteracted = false then { s with availableDays := [] }
     else s)
  else s

/-- Content-refresh step: the monthly and daily snapshot-loading effects (lines
640-742) guard which fetched snapshot may be shown, but every write they
perform goes through setSpreadsheetData/updateSpreadsheetData — none of them
writes the selection state or the refs, so a completed content refresh is an
update of the displayed content only. -/
def refreshContent (s : SelState) (fetched : Option String) : SelState :=
  { s with content := fetched }

/-- Background refresh cycle events: the three kinds of periodic re-fetches. -/
inductive RefreshEvent where
  | months (ms : List String)
  | days (ds : List String)
  | content (c : Option String)
deriving DecidableEq

/-- Application of one refresh event. -/
def applyRefresh (s : SelState) : RefreshEvent → SelState
  | RefreshEvent.months ms => refreshMonths s ms
  | RefreshEvent.days ds => refreshDays s ds
  | RefreshEvent.content c => refreshContent s c

/-- Application of a whole sequence of refresh cycles. -/
def applyRefreshes (s : SelState) (evts : List RefreshEvent) : SelState :=
  evts.foldl applyRefresh s

/-- Operator month selection in the monthly view (onChange of lines 1546-1564):
sets the interaction, lock and month refs and records the chosen key. -/
def userSelectMonth (s : SelState) (m : String) : SelState :=
  { s with
    hasUserInteracted := true
    lockSelection := true
    userSelectedMonth := true
    lastSelectedMonth := m
    selectedMonth := m }

/-- Operator month selection in the daily view (onChange of lines 1581-1595):
additionally clears the day when no day was user-chosen yet. -/
def userSelectMonthDaily (s : SelState) (m : String) : SelState :=
  let s1 := { s with
    hasUserInteracted := true
    lockSelection := true
    userSelectedMonth := true
    lastSelectedMonth := m
    selectedMonth := m }
  if s1.userSelectedDay = false then { s1 with selectedDay := "", lastSelectedDay := "" } else s1

/-- Operator day selection (onChange of lines 1612-1628 and the day buttons of
lines 1708-1719). -/
def userSelectDay (s : SelState) (d : String) : SelState :=
  { s with
    hasUserInteracted := true
    lockSelection := true
    userSelectedDay := true
    lastSelectedDay := d
    selectedDay := d }

/-- Spreadsheet-type switch (onChange of lines 1530-1534): the type changes and
both selected keys are cleared; none of the refs is reset. -/
def switchType (s : SelState) (t : SType) : SelState :=
  { s with spreadsheetType := t, selectedMonth := "", selectedDay := "" }

/-- Initial state of a freshly mounted view. -/
def initialSelState : SelState :=
  { spreadsheetType := SType.monthly
    selectedMonth := ""
    selectedDay := ""
    availableMonths := []
    availableDays := []
    content := none
    hasUserInteracted := false
    lockSelection := false
    userSelectedMonth := false
    userSelectedDay := false
    isInitialLoad := true
    lastSelectedMonth := ""
    lastSelectedDay := ""
    monthsLoaded := false
    daysLoaded := false }

example : (refreshMonths initialSelState ["2024-05", "2024-04"]).selectedMonth = "2024-04" := by
  decide

example : (refreshMonths initialSelState ["2024-05", "2024-04"]).availableMonths =
    ["2024-04", "2024-05"] := by
  decide

/-- One refresh step never touches the selection of an interacted view, and
never clears the interaction flag. -/
theorem applyRefresh_keeps_selection (s : SelState) (e : RefreshEvent)
    (h : s.hasUserInteracted = true) :
    (applyRefresh s e).selectedMonth = s.selectedMonth ∧
    (applyRefresh s e).selectedDay = s.selectedDay ∧
    (applyRefresh s e).hasUserInteracted = true := by
  cases e with
  | months ms =>
      simp only [applyRefresh, refreshMonths, h, if_true]
      split <;> simp [h]
  | days ds =>
      simp only [applyRefresh, refreshDays, h, if_true]
      split <;> (try split) <;> simp [h]
  | content c =>
      simp [applyRefresh, refreshContent, h]

/-- Claim C1: once the operator has explicitly selected a period or day (the
view is in the UserSelected regime, hasUserInteractedRef set), no sequence of
background refresh cycles — months-list refreshes, days-list refreshes or
snapshot-content refreshes, with arbitrary fetched lists — changes the selected
month or day key. -/
theorem c1_user_selection_stable (s : SelState) (h : s.hasUserInteracted = true)
    (evts : List RefreshEvent) :
    (applyRefreshes s evts).selectedMonth = s.selectedMonth ∧
    (applyRefreshes s evts).selectedDay = s.selectedDay := by
  induction evts generalizing s with
  | nil => exact ⟨rfl, rfl⟩
  | cons e rest ih =>
      have hstep := applyRefresh_keeps_selection s e h
      have hrec := ih (applyRefresh s e) hstep.2.2
      exact ⟨hrec.1.trans hstep.1, hrec.2.trans hstep.2.1⟩

/-- Ten background refresh cycles, with the periods list unchanged, changed,
reordered, emptied, and with content refreshes interleaved. -/
def tenRefreshCycles : List RefreshEvent :=
  [RefreshEvent.months ["2024-05", "2024-04"],
   RefreshEvent.months ["2024-04", "2024-05"],
   RefreshEvent.months ["2024-06", "2024-05", "2024-04"],
   RefreshEvent.days ["2024-04-02", "2024-04-01"],
   RefreshEvent.content (some "snapshot-a"),
   RefreshEvent.months [],
   RefreshEvent.days [],
   RefreshEvent.content none,
   RefreshEvent.months ["2024-05", "2024-04"],
   RefreshEvent.days ["2024-04-03"]]

/-- Witness for C1: after the operator selects 2024-04, ten refresh cycles
leave the selection at 2024-04. -/
theorem c1_user_selection_stable_witness :
    (applyRefreshes (userSelectMonth (refreshMonths initialSelState ["2024-05", "2024-04"])
        "2024-04") tenRefreshCycles).selectedMonth = "2024-04" := by
  have h := c1_user_selection_stable
    (userSelectMonth (refreshMonths initialSelState ["2024-05", "2024-04"]) "2024-04")
    (by decide) tenRefreshCycles
  exact h.1.trans (by decide)

/-- Counterexample for C6: a fresh view auto-selects months[0] of the
ascending-sorted list on the first months load — 2024-04, the OLDEST available
month, not the most recent; and switching the spreadsheet type clears the
selection, but the next successful months load does NOT re-trigger automatic
selection — the selection stays empty, because the initial-load flag was
consumed by the first load and is never reset. -/
theorem c6_type_switch_counterexample :
    (refreshMonths initialSelState ["2024-05", "2024-04"]).selectedMonth = "2024-04" ∧
    ("2024-04" : String) ≠ "2024-05" ∧
    (refreshMonths (switchType (refreshMonths initialSelState ["2024-05", "2024-04"])
        SType.daily) ["2024-05", "2024-04"]).selectedMonth = "" ∧
    ("" : String) ≠ "2024-04" := by
  refine ⟨by decide, by decide, by decide, by decide⟩

/-- Claim C6 as amended: switching the spreadsheet type clears the selected
month and day but resets none of the interaction, lock or initial-load flags;
and a months load re-selects nothing once the initial-load flag is spent — the
automatic selection (which picks the head of the ascending-sorted list, the
OLDEST period, not the most recent) happens only on the very first successful
load of a view. -/
theorem c6_switch_clears_but_never_reselects (s : SelState) (t : SType) :
    ((switchType s t).spreadsheetType = t ∧
     (switchType s t).selectedMonth = "" ∧
     (switchType s t).selectedDay = "" ∧
     (switchType s t).hasUserInteracted = s.hasUserInteracted ∧
     (switchType s t).lockSelection = s.lockSelection ∧
     (switchType s t).isInitialLoad = s.isInitialLoad) ∧
    (∀ ms, s.isInitialLoad = false → (refreshMonths s ms).selectedMonth = s.selectedMonth) := by
  constructor
  · simp [switchType]
  · intro ms h
    simp only [refreshMonths]
    split_ifs <;> simp_all

/-- Witness for C6: after the counterexample run reaches the post-switch state,
the amended theorem applies — the next months load leaves the empty selection
in place. -/
theorem c6_switch_witness :
    (refreshMonths (switchType (refreshMonths initialSelState ["2024-05", "2024-04"])
        SType.daily) ["2024-06", "2024-05"]).selectedMonth =
      (switchType (refreshMonths initialSelState ["2024-05", "2024-04"])
        SType.daily).selectedMonth := by
  exact (c6_switch_clears_but_never_reselects
    (switchType (refreshMonths initialSelState ["2024-05", "2024-04"]) SType.daily)
    SType.daily).2 ["2024-06", "2024-05"] (by decide)

/-- Monthly snapshot already persisted for customer c1, no terminal, January. -/
def c3ExistingRow : SRow :=
  { id := "sheet1"
    customerId := "c1"
    terminalId := none
    referenceMonth := "2024-01"
    referenceDate := none
    type := SType.monthly
    fileName := "janeiro.xlsx" }

/-- Second monthly upload for the same (customer, no terminal, month) key. -/
def c3Snapshot : Snapshot :=
  { id := "sheet2"
    customerId := "c1"
    terminalId := none
    fileName := "janeiro-v2.xlsx"
    uploadedAt := "2024-02-01T10:00:00.000Z"
    referenceMonth := "2024-01"
    referenceDate := none
    type := SType.monthly
    headers := []
    data := [] }

/-- Monthly snapshot already persisted for customer c1 on terminal T1. -/
def c3ExistingRowT : SRow :=
  { id := "sheet1t"
    customerId := "c1"
    terminalId := some "T1"
    referenceMonth := "2024-01"
    referenceDate := none
    type := SType.monthly
    fileName := "janeiro.xlsx" }

/-- Second monthly upload for the same (customer, terminal T1, month) key. -/
def c3SnapshotT : Snapshot :=
  { id := "sheet2t"
    customerId := "c1"
    terminalId := some "T1"
    fileName := "janeiro-v2.xlsx"
    uploadedAt := "2024-02-01T10:00:00.000Z"
    referenceMonth := "2024-01"
    referenceDate := none
    type := SType.monthly
    headers := []
    data := [] }

/-- Claim C3 against the code: for a monthly snapshot with a terminal the save
replaces the existing row and exactly one snapshot stays persisted; but in the
no-terminal case the existing-row lookup compares terminal_id with eq against
null, which never matches the NULL column (the rest of the repository uses the
is operator for exactly this reason), so the save INSERTS a second row and two
monthly snapshots are persisted for the same (customer, no terminal, month)
key — contradicting the documented replace semantics of saveSpreadsheet. -/
theorem c3_monthly_save_duplicates_without_terminal :
    countMonthlySnapshots [c3ExistingRow] "c1" none "2024-01" = 1 ∧
    findExistingMonthly [c3ExistingRow] "c1" none "2024-01" = none ∧
    (saveSpreadsheetStore [c3ExistingRow] c3Snapshot "sheet2").length = 2 ∧
    countMonthlySnapshots (saveSpreadsheetStore [c3ExistingRow] c3Snapshot "sheet2")
      "c1" none "2024-01" = 2 ∧
    (saveSpreadsheetStore [c3ExistingRowT] c3SnapshotT "sheet2t").length = 1 ∧
    countMonthlySnapshots (saveSpreadsheetStore [c3ExistingRowT] c3SnapshotT "sheet2t")
      "c1" (some "T1") "2024-01" = 1 := by
  refine ⟨by decide, by decide, by decide, by decide, by decide, by decide⟩

/-- Claim C10 against the code: transferToDb interpolates dateMatch[1] — the
year capture group, not the whole matched date — so 2024-05-15 is stored as
2024T12:00:00.000Z, which denotes noon UTC of January 1st; reading it back
through normalizeDate yields 2024-01-01 at every reader offset strictly within
twelve hours of UTC (the boundary offsets are shown), not 2024-05-15. The
intended serialization (the full date before T12:00:00.000Z, as the source
comment describes) does round-trip the calendar day. -/
theorem c10_dataEnvio_roundtrip_bug :
    serializeDataEnvio "2024-05-15" = some "2024T12:00:00.000Z" ∧
    serializeDataEnvioIntended "2024-05-15" = some "2024-05-15T12:00:00.000Z" ∧
    normalizeDateAt 0 "2024T12:00:00.000Z" = "2024-01-01" ∧
    normalizeDateAt (-719) "2024T12:00:00.000Z" = "2024-01-01" ∧
    normalizeDateAt 719 "2024T12:00:00.000Z" = "2024-01-01" ∧
    normalizeDateAt (-180) "2024-05-15T12:00:00.000Z" = "2024-05-15" ∧
    normalizeDateAt 719 "2024-05-15T12:00:00.000Z" = "2024-05-15" ∧
    ("2024-01-01" : String) ≠ "2024-05-15" := by
  refine ⟨by decide, by decide, by decide, by decide, by decide, by decide, by decide, by decide⟩

/-- Claim C9: when the persistence phase of saveSpreadsheet succeeds, a failing
reconciliation step never fails the save — the save completes with the snapshot
persisted and the ledger untouched; and conversely an error escaping
saveSpreadsheet can only be a persistence-phase error. -/
theorem c9_reconcile_error_never_fails_save (store : List SRow) (ledger : List Transfer)
    (sp : Snapshot) (fid : String) :
    (∀ msg, saveWithReconcile store ledger sp fid none (Except.error msg) =
      Except.ok (saveSpreadsheetStore store sp fid, ledger)) ∧
    (∀ pe rec e, saveWithReconcile store ledger sp fid pe rec = Except.error e →
      pe = some e) := by
  constructor
  · intro msg
    rfl
  · intro pe rec e hrun
    cases pe with
    | some p =>
        simp only [saveWithReconcile] at hrun
        cases hrun
        rfl
    | none =>
        cases rec with
        | ok l2 => simp [saveWithReconcile] at hrun
        | error m => simp [saveWithReconcile] at hrun

/-- Daily snapshot used by the error-handling witness. -/
def c9Snapshot : Snapshot :=
  { id := "sheet9"
    customerId := "c1"
    terminalId := none
    fileName := "dia.xlsx"
    uploadedAt := "2024-05-15T10:00:00.000Z"
    referenceMonth := "2024-05"
    referenceDate := some "2024-05-15"
    type := SType.daily
    headers := []
    data := [] }

/-- Witness for C9: a concrete save whose reconciliation step fails with a
ledger-store error still returns ok, and a concrete persistence error is the
only way the run errors. -/
theorem c9_reconcile_error_witness :
    saveWithReconcile [] [] c9Snapshot "s1" none (Except.error "ledger unavailable") =
      Except.ok (saveSpreadsheetStore [] c9Snapshot "s1", []) ∧
    (some "db down" : Option String) = some "db down" := by
  refine ⟨(c9_reconcile_error_never_fails_save [] [] c9Snapshot "s1").1 "ledger unavailable", ?_⟩
  exact (c9_reconcile_error_never_fails_save [] [] c9Snapshot "s1").2 (some "db down")
    (Except.ok []) "db down" (by rfl)

/-- Characterization of a failed findIndexL scan. -/
theorem findIndexL_eq_none_iff (p : String → Bool) (l : List String) :
    findIndexL p l = none ↔ ∀ x ∈ l, p x = false := by
  induction l with
  | nil => simp [findIndexL]
  | cons a t ih =>
      by_cases hpa : p a = true
      · simp [findIndexL, hpa]
      · simp only [findIndexL, Bool.not_eq_true] at hpa ⊢
        simp [hpa, ih]

/-- A successful findIndexL scan returns the index of a matching element. -/
theorem findIndexL_eq_some (p : String → Bool) (l : List String) (i : Nat)
    (h : findIndexL p l = some i) : ∃ x, l[i]? = some x ∧ p x = true := by
  induction l generalizing i with
  | nil => simp [findIndexL] at h
  | cons a t ih =>
      by_cases hpa : p a = true
      · simp [findIndexL, hpa] at h
        subst h
        exact ⟨a, by simp, hpa⟩
      · simp only [findIndexL, Bool.not_eq_true] at hpa
        simp only [findIndexL, hpa, Bool.false_eq_true, if_false] at h
        obtain ⟨j, hj, hji⟩ := Option.map_eq_some'.mp h
        obtain ⟨x, hx, hpx⟩ := ih j hj
        subst hji
        exact ⟨x, by simpa using hx, hpx⟩

/-- A failed synonym-table pass leaves no header matching any key of the field. -/
theorem mappingLookup_eq_none (headers : List String) (f : String)
    (table : List (String × String)) (h : mappingLookup headers f table = none) :
    ∀ kv ∈ table, kv.snd == f → ∀ x ∈ headers, (normalizeColumnName x == kv.fst) = false := by
  induction table with
  | nil => simp
  | cons e rest ih =>
      obtain ⟨k, f2⟩ := e
      simp only [mappingLookup] at h
      by_cases hf : (f2 == f) = true
      · rw [if_pos hf] at h
        cases hidx : findIndexL (fun x => normalizeColumnName x == k) headers with
        | some i => rw [hidx] at h; cases h
        | none =>
            rw [hidx] at h
            intro kv hkv hkvf x hx
            rcases List.mem_cons.mp hkv with hkv1 | hkv2
            · subst hkv1
              exact (findIndexL_eq_none_iff _ headers).mp hidx x hx
            · exact ih h kv hkv2 hkvf x hx
      · rw [if_neg hf] at h
        intro kv hkv hkvf x hx
        rcases List.mem_cons.mp hkv with hkv1 | hkv2
        · subst hkv1; exact absurd hkvf hf
        · exact ih h kv hkv2 hkvf x hx

/-- A successful synonym-table pass returns the index of a header matching some
table key of the field. -/
theorem mappingLookup_eq_some (headers : List String) (f : String)
    (table : List (String × String)) (i : Nat)
    (h : mappingLookup headers f table = some i) :
    ∃ kv ∈ table, kv.snd == f ∧
      ∃ x, headers[i]? = some x ∧ (normalizeColumnName x == kv.fst) = true := by
  induction table with
  | nil => simp [mappingLookup] at h
  | cons e rest ih =>
      obtain ⟨k, f2⟩ := e
      simp only [mappingLookup] at h
      by_cases hf : (f2 == f) = true
      · rw [if_pos hf] at h
        cases hidx : findIndexL (fun x => normalizeColumnName x == k) headers with
        | some j =>
            rw [hidx] at h
            cases h
            obtain ⟨x, hx, hpx⟩ := findIndexL_eq_some _ headers i hidx
            exact ⟨(k, f2), List.mem_cons_self _ _, hf, x, hx, hpx⟩
        | none =>
            rw [hidx] at h
            obtain ⟨kv, hkv, hkvf, hxx⟩ := ih h
            exact ⟨kv, List.mem_cons_of_mem _ hkv, hkvf, hxx⟩
      · rw [if_neg hf] at h
        obtain ⟨kv, hkv, hkvf, hxx⟩ := ih h
        exact ⟨kv, List.mem_cons_of_mem _ hkv, hkvf, hxx⟩

/-- Counterexample for C8: the synonym key horário is stored with its accent
while the header side is accent-stripped before the comparison, so the header
Horário resolves to nothing under the code, although the case/accent-insensitive
matching the claim describes resolves it to index 0. -/
theorem c8_accent_synonym_counterexample :
    findColumnIndex ["Horário"] "horaVenda" = none ∧
    findColumnIndexClaim ["Horário"] "horaVenda" = some 0 ∧
    (none : Option Nat) ≠ some 0 := by
  refine ⟨by decide, by decide, by decide⟩

/-- Claim C8 as amended: column resolution tries, first hit wins, (1) the
verbatim canonical field name against the normalized header, (2) the verbatim
synonym keys of the field against the normalized header (keys carrying accents
can therefore never match), (3) substring containment in either direction
between the normalized header and the normalized field name; it returns the
index of a header matching one of these rules, returns null exactly when no
header matches any of them, and never throws; a stage-(1) hit takes priority. -/
theorem c8_resolution_characterization (headers : List String) (fieldName : String) :
    (findColumnIndex headers fieldName = none →
      ∀ h ∈ headers, headerMatchesField h fieldName = false) ∧
    (∀ i, findColumnIndex headers fieldName = some i →
      ∃ h, headers[i]? = some h ∧ headerMatchesField h fieldName = true) ∧
    (∀ i, findIndexL (fun h => normalizeColumnName h == fieldName) headers = some i →
      findColumnIndex headers fieldName = some i) := by
  refine ⟨?_, ?_, ?_⟩
  · intro hnone h hmem
    simp only [findColumnIndex] at hnone
    cases h1 : findIndexL (fun x => normalizeColumnName x == fieldName) headers with
    | some i => rw [h1] at hnone; cases hnone
    | none =>
        rw [h1] at hnone
        cases h2 : mappingLookup headers fieldName FIELD_MAPPINGS with
        | some i => rw [h2] at hnone; cases hnone
        | none =>
            rw [h2] at hnone
            have f1 := (findIndexL_eq_none_iff _ headers).mp h1 h hmem
            have f3 := (findIndexL_eq_none_iff _ headers).mp hnone h hmem
            have f2 : (FIELD_MAPPINGS.any (fun kv =>
                kv.snd == fieldName && normalizeColumnName h == kv.fst)) = false := by
              rw [List.any_eq_false]
              intro kv hkv
              by_cases hkvf : (kv.snd == fieldName) = true
              · have := mappingLookup_eq_none headers fieldName FIELD_MAPPINGS h2 kv hkv
                  hkvf h hmem
                simp [this]
              · simp only [Bool.not_eq_true] at hkvf
                simp [hkvf]
            simp only [headerMatchesField, f1, f2, f3]
            rfl
  · intro i hsome
    simp only [findColumnIndex] at hsome
    cases h1 : findIndexL (fun x => normalizeColumnName x == fieldName) headers with
    | some j =>
        rw [h1] at hsome
        cases hsome
        obtain ⟨x, hx, hpx⟩ := findIndexL_eq_some _ headers i h1
        exact ⟨x, hx, by simp [headerMatchesField, hpx]⟩
    | none =>
        rw [h1] at hsome
        cases h2 : mappingLookup headers fieldName FIELD_MAPPINGS with
        | some j =>
            rw [h2] at hsome
            cases hsome
            obtain ⟨kv, hkv, hkvf, x, hx, hpx⟩ :=
              mappingLookup_eq_some headers fieldName FIELD_MAPPINGS i h2
            refine ⟨x, hx, ?_⟩
            have hany : (FIELD_MAPPINGS.any (fun kv =>
                kv.snd == fieldName && normalizeColumnName x == kv.fst)) = true := by
              rw [List.any_eq_true]
              exact ⟨kv, hkv, by simp [hkvf, hpx]⟩
            simp [headerMatchesField, hany]
        | none =>
            rw [h2] at hsome
            obtain ⟨x, hx, hpx⟩ := findIndexL_eq_some _ headers i hsome
            refine ⟨x, hx, ?_⟩
            simp only [headerMatchesField]
            rw [hpx]
            simp
  · intro i h1
    simp [findColumnIndex, h1]

/-- Witness for C8: the header Valor Bruto resolves for the canonical field
valorBruto (through its synonym key), at index 0, and the characterization
produces the matching header. -/
theorem c8_resolution_witness :
    findColumnIndex ["Valor Bruto"] "valorBruto" = some 0 ∧
    (∃ h, (["Valor Bruto"] : List String)[0]? = some h ∧
      headerMatchesField h "valorBruto" = true) := by
  refine ⟨by decide, ?_⟩
  exact (c8_resolution_characterization ["Valor Bruto"] "valorBruto").2.1 0 (by decide)

/-- Ledger entry already reconciled for customer c1 and period Janeiro/2024,
with a manually edited status and sent date. -/
def c2ExistingTransfer : Transfer :=
  { id := "t1"
    periodo := "Janeiro/2024"
    valorBruto := 50
    taxas := 5
    valorLiquido := 45
    status := "pago"
    dataEnvio := "2024-01-31"
    customerId := "c1"
    customerName := "Cliente Um" }

/-- Monthly snapshot for the same customer and period, carrying a gross column. -/
def c2Snapshot : Snapshot :=
  { id := "sheet-2024-01"
    customerId := "c1"
    terminalId := none
    fileName := "jan.xlsx"
    uploadedAt := "2024-02-01T10:00:00.000Z"
    referenceMonth := "2024-01"
    referenceDate := none
    type := SType.monthly
    headers := ["Valor Bruto"]
    data := [[("Valor Bruto", Cell.num 100)]] }

/-- Claim C2 against the code: re-reconciling the (c1, Janeiro/2024) snapshot
against a ledger that already holds the entry updates it in place — no
duplicate is created, and id, periodo, status, customerId and customerName
survive — but the persisted sent date is NOT left unchanged: updateTransfer
re-serializes the whole merged record through transferToDb, whose dateMatch[1]
serialization stores the manually set 2024-01-31 as 2024T12:00:00.000Z, and
the next read returns 2024-01-01. The resulting one-entry ledger is computed
in full. -/
theorem c2_reconcile_rewrites_sentDate :
    c2ExistingTransfer.status = "pago" ∧
    c2ExistingTransfer.dataEnvio = "2024-01-31" ∧
    serializeDataEnvio "2024-01-31" = some "2024T12:00:00.000Z" ∧
    createTransferFromSpreadsheet 0 [c2ExistingTransfer] c2Snapshot none none
        "Cliente Um" "t2" =
      [{ id := "t1"
         periodo := "Janeiro/2024"
         valorBruto := 100
         taxas := 51 / 10
         valorLiquido := 949 / 10
         status := "pago"
         dataEnvio := "2024-01-01"
         customerId := "c1"
         customerName := "Cliente Um" }] ∧
    ("2024-01-01" : String) ≠ "2024-01-31" := by
  refine ⟨rfl, rfl, by decide, ?_, by decide⟩
  have hp : periodoParaBusca 0 c2Snapshot = some "Janeiro/2024" := by decide
  have hc : (c2ExistingTransfer.customerId == c2Snapshot.customerId) = true := by decide
  have hpd : (c2ExistingTransfer.periodo == "Janeiro/2024") = true := by decide
  have hfind : (([c2ExistingTransfer].filter
      (fun t => t.customerId == c2Snapshot.customerId)).find?
      (fun t => t.customerId == c2Snapshot.customerId && t.periodo == "Janeiro/2024"))
      = some c2ExistingTransfer := by
    simp [List.filter_cons, List.find?_cons, hc, hpd]
  have hqh : findQuantidadeHeader ["Valor Bruto"] = none := by decide
  have hvbh : findValorBrutoHeader ["Valor Bruto"] = some "Valor Bruto" := by decide
  have hvlh : findValorLiquidoHeader ["Valor Bruto"] = none := by decide
  have hth : findTaxaHeader ["Valor Bruto"] = none := by decide
  have hm1 : (calculateMetricsCore none c2Snapshot.headers c2Snapshot.data).valorBrutoTotal
      = 100 := by
    show (calculateMetricsCore none ["Valor Bruto"]
      [[("Valor Bruto", Cell.num 100)]]).valorBrutoTotal = 100
    simp only [calculateMetricsCore, hqh, hvbh, hvlh, hth]
    simp [sumColumn, rowGet, cellPresent, parseValorCell]
  have hm2 : (calculateMetricsCore none c2Snapshot.headers c2Snapshot.data).taxaMedia
      = 0 := by
    show (calculateMetricsCore none ["Valor Bruto"]
      [[("Valor Bruto", Cell.num 100)]]).taxaMedia = 0
    simp [calculateMetricsCore, hth]
  have hgetd : (cvValorBruto (none : Option CardValues)).getD
      (calculateMetricsCore none c2Snapshot.headers c2Snapshot.data).valorBrutoTotal = 100 := by
    simp only [cvValorBruto, Option.none_bind, Option.getD_none]
    exact hm1
  have htx : computeTaxas none (calculateMetricsCore none c2Snapshot.headers c2Snapshot.data)
      = 51 / 10 := by
    simp only [computeTaxas, cvTaxa, cvValorBruto, Option.none_bind, posOpt, hm2, hm1]
    norm_num
  have hvli : computeValorLiquido none 100 (51 / 10) = 949 / 10 := by
    simp only [computeValorLiquido, cvValorLiquido, Option.none_bind]
    norm_num
  have hss : storeStatus c2ExistingTransfer.status = "pago" := by decide
  have hsd : storeDataEnvio 0 c2ExistingTransfer.dataEnvio = "2024-01-01" := by decide
  simp only [createTransferFromSpreadsheet, hp, hfind]
  rw [hgetd]
  rw [if_pos (by norm_num : (0 : Rat) < 100)]
  rw [htx, hvli]
  simp only [List.map_cons, List.map_nil, beq_self_eq_true, if_true, hss, hsd]
  rfl

/-- Snapshot row of the C4 scenario: the located count column holds zero. -/
def c4Row : Row := [("Quantidade de Vendas", Cell.num 0)]

/-- Claim C4 against the code: a snapshot whose sales-count column is located
and sums to zero. The count-of-rows fallback at the end of the aggregation
(guarded only by the total still being zero, not by the column being absent)
overrides the column sum: the code reports totalVendas 1 for a one-row sheet
whose count column holds 0, where the claim — and the comment over the
fallback itself — says the column sum 0. -/
theorem c4_row_count_fallback_overrides_sum :
    findQuantidadeHeader ["Quantidade de Vendas"] = some "Quantidade de Vendas" ∧
    sumColumn [c4Row] (some "Quantidade de Vendas") parseQtdCell = 0 ∧
    (calculateMetricsCore none ["Quantidade de Vendas"] [c4Row]).totalVendas = 1 ∧
    (1 : Rat) ≠ 0 := by
  have hq : findQuantidadeHeader ["Quantidade de Vendas"] = some "Quantidade de Vendas" := by
    decide
  have hvb : findValorBrutoHeader ["Quantidade de Vendas"] = none := by decide
  have hvl : findValorLiquidoHeader ["Quantidade de Vendas"] = none := by decide
  have ht : findTaxaHeader ["Quantidade de Vendas"] = none := by decide
  have hsum : sumColumn [c4Row] (some "Quantidade de Vendas") parseQtdCell = 0 := by
    simp [sumColumn, c4Row, rowGet, cellPresent, parseQtdCell]
  refine ⟨hq, hsum, ?_, by norm_num⟩
  simp only [calculateMetricsCore, hq, hvb, hvl, ht, hsum]
  norm_num [sumColumn, rowHasData, c4Row]

/-- Fee column data of the C7 scenario: a positive fee and a zero fee. -/
def c7Rows : List Row := [[("Taxa", Cell.num 2)], [("Taxa", Cell.num 0)]]

/-- Counterexample for C7: with no customer rate and fee column values 2 and 0,
the code filters the zero out before the all-equal test and returns 2; the rule
as the claim words it keeps every value read from the column, fails the 0.01
tolerance test between 0 and 2, and returns the mean 1. -/
theorem c7_zero_fee_counterexample :
    (calculateMetricsCore none ["Taxa"] c7Rows).taxaMedia = 2 ∧
    taxaMediaClaimRule none ["Taxa"] c7Rows = 1 ∧
    (2 : Rat) ≠ 1 := by
  have ht : findTaxaHeader ["Taxa"] = some "Taxa" := by decide
  have hget2 : rowGet [("Taxa", Cell.num 2)] "Taxa" = some (Cell.num 2) := by
    simp [rowGet, List.find?_cons, List.find?_nil]
  have hget0 : rowGet [("Taxa", Cell.num 0)] "Taxa" = some (Cell.num 0) := by
    simp [rowGet, List.find?_cons, List.find?_nil]
  refine ⟨?_, ?_, by norm_num⟩
  · have hcol : collectTaxas c7Rows "Taxa" = [2] := by
      simp only [collectTaxas, c7Rows, List.filterMap_cons, List.filterMap_nil,
        hget2, hget0, cellPresent, parseTaxaCell]
      norm_num
    simp only [calculateMetricsCore, ht, hcol]
    norm_num [taxaMediaOf, ratAbs]
  · have hvals : c7Rows.filterMap (fun row =>
        match rowGet row "Taxa" with
        | none => none
        | some c => if cellPresent (some c) then parseTaxaCell c else none) = [2, 0] := by
      simp only [c7Rows, List.filterMap_cons, List.filterMap_nil,
        hget2, hget0, cellPresent, parseTaxaCell]
      norm_num
    simp only [taxaMediaClaimRule, ht, hvals]
    norm_num [taxaMediaOf, ratAbs]

/-- Appending the positivity gate to an option-producing reader commutes with
filtering the positive results. -/
theorem filterMap_pos_gate (g : Row → Option Rat) (l : List Row) :
    (l.filterMap (fun r =>
      match g r with
      | some t => if 0 < t then some t else none
      | none => none)) = (l.filterMap g).filter (fun t => decide (0 < t)) := by
  induction l with
  | nil => rfl
  | cons a rest ih =>
      cases hg : g a with
      | none => simp [List.filterMap_cons, hg, ih]
      | some t =>
          by_cases hpos : 0 < t
          · simp [List.filterMap_cons, hg, hpos, ih]
          · simp [List.filterMap_cons, hg, hpos, ih]

/-- The fee values the code collects are exactly the positive members of the
values the fee column parses to. -/
theorem collectTaxas_eq_pos_filter (d : List Row) (th : String) :
    collectTaxas d th = (d.filterMap (fun row =>
      match rowGet row th with
      | none => none
      | some c => if cellPresent (some c) then parseTaxaCell c else none)).filter
        (fun t => decide (0 < t)) := by
  rw [← filterMap_pos_gate]
  unfold collectTaxas
  congr 1
  funext row
  cases hg : rowGet row th with
  | none => simp
  | some c =>
      by_cases hc : cellPresent (some c) = true
      · simp only [hc, if_true]
      · simp only [Bool.not_eq_true] at hc
        simp [hc]

/-- Claim C7 as amended: the effective fee rate is the customer-level rate when
set; otherwise, with a fee column located, the strictly positive parsed fee
values are collected and the rate is the first of them when all of them agree
within 0.01, their arithmetic mean otherwise; zero, negative, blank and
unparseable entries are skipped, and with no customer rate and no fee column
(or no positive value) the rate stays 0. -/
theorem c7_positive_fee_rule (ct : Option Rat) (hs : List String) (d : List Row) :
    (calculateMetricsCore ct hs d).taxaMedia = taxaMediaAmendedRule ct hs d := by
  cases ct with
  | some t => simp [calculateMetricsCore, taxaMediaAmendedRule]
  | none =>
      cases hth : findTaxaHeader hs with
      | none => simp [calculateMetricsCore, taxaMediaAmendedRule, hth]
      | some th =>
          simp only [calculateMetricsCore, taxaMediaAmendedRule, hth]
          rw [collectTaxas_eq_pos_filter]

/-- Counterexample for C5: the per-row numeric parsing of
parseSpreadsheetToSales replaces only the first comma with a dot and never
strips the thousands dots, so the Brazilian-formatted string 1.234,56 parses
to 1.234 there, not to the exact decimal 1234.56 the claim requires of the
locale parser at every cited site. -/
theorem c5_row_parser_counterexample :
    rowParseNumeric "1.234,56" = 1234 / 1000 ∧
    ¬ rowParseNumeric "1.234,56" = 123456 / 100 := by
  have h : rowParseNumeric "1.234,56" = 1234 / 1000 := by
    simp [rowParseNumeric, cleanNumericL, commaToDotL, jsParseFloat, jsParseFloatCore,
      isJsSpace, digitsVal]
    norm_num
  exact ⟨h, by rw [h]; norm_num⟩

/-- Digits are not whitespace. -/
theorem digit_not_space (c : Char) (h : c.isDigit = true) : isJsSpace c = false := by
  by_contra hs
  simp only [Bool.not_eq_false, isJsSpace, Bool.or_eq_true, decide_eq_true_eq] at hs
  rcases hs with ((((h1 | h1) | h1) | h1) | h1) | h1 <;> (subst h1; exact absurd h (by decide))

/-- A digit differs from any concrete non-digit character. -/
theorem digit_ne (c : Char) (h : c.isDigit = true) (x : Char) (hx : x.isDigit = false) :
    c ≠ x := by
  intro he
  subst he
  rw [h] at hx
  cases hx

/-- takeWhile over a block of satisfying elements passes the block through. -/
theorem takeWhile_all_append (p : Char → Bool) (d r : List Char)
    (hd : ∀ c ∈ d, p c = true) :
    (d ++ r).takeWhile p = d ++ r.takeWhile p := by
  induction d with
  | nil => simp
  | cons a t ih =>
      have ha := hd a (List.mem_cons_self a t)
      simp only [List.cons_append, List.takeWhile_cons, ha, if_true]
      rw [ih (fun c hc => hd c (List.mem_cons_of_mem a hc))]

/-- dropWhile over a block of satisfying elements removes the block. -/
theorem dropWhile_all_append (p : Char → Bool) (d r : List Char)
    (hd : ∀ c ∈ d, p c = true) :
    (d ++ r).dropWhile p = r.dropWhile p := by
  induction d with
  | nil => simp
  | cons a t ih =>
      have ha := hd a (List.mem_cons_self a t)
      simp only [List.cons_append, List.dropWhile_cons, ha, if_true]
      exact ih (fun c hc => hd c (List.mem_cons_of_mem a hc))

/-- jsParseFloatCore on a digit block, a dot and a digit block reads the
denoted decimal; NaN exactly when both blocks are empty. -/
theorem jsParseFloatCore_digits_dot (D F : List Char)
    (hD : ∀ c ∈ D, c.isDigit = true) (hF : ∀ c ∈ F, c.isDigit = true) :
    jsParseFloatCore (D ++ '.' :: F) =
      if D.isEmpty && F.isEmpty then none
      else some ((digitsVal D : Rat) + (digitsVal F : Rat) / (10 : Rat) ^ F.length) := by
  have hdotd : ('.' : Char).isDigit = false := by decide
  have htake : (D ++ '.' :: F).takeWhile Char.isDigit = D := by
    rw [takeWhile_all_append _ D _ hD]
    simp [List.takeWhile_cons, hdotd]
  have hdrop : (D ++ '.' :: F).dropWhile Char.isDigit = '.' :: F := by
    rw [dropWhile_all_append _ D _ hD]
    simp [List.dropWhile_cons, hdotd]
  have htakeF : F.takeWhile Char.isDigit = F := by
    simpa using takeWhile_all_append Char.isDigit F [] hF
  simp only [jsParseFloatCore, htake, hdrop, List.headD_cons, List.tail_cons, htakeF]
  simp

/-- jsParseFloat on a digit block, a dot and a digit block. -/
theorem jsParseFloat_digits_dot (D F : List Char)
    (hD : ∀ c ∈ D, c.isDigit = true) (hF : ∀ c ∈ F, c.isDigit = true) :
    jsParseFloat (String.mk (D ++ '.' :: F)) =
      if D.isEmpty && F.isEmpty then none
      else some ((digitsVal D : Rat) + (digitsVal F : Rat) / (10 : Rat) ^ F.length) := by
  have hcore := jsParseFloatCore_digits_dot D F hD hF
  cases D with
  | nil =>
      simp only [jsParseFloat]
      have hdrop : (String.mk (([] : List Char) ++ '.' :: F)).toList.dropWhile isJsSpace =
          '.' :: F := by
        simp [List.dropWhile_cons, isJsSpace]
      rw [hdrop]
      have h1 : ¬ ('.' : Char) = '-' := by decide
      have h2 : ¬ ('.' : Char) = '+' := by decide
      simp only [h1, h2, if_false]
      simpa using hcore
  | cons a t =>
      have ha : a.isDigit = true := hD a (List.mem_cons_self a t)
      simp only [jsParseFloat]
      have hdrop : (String.mk ((a :: t) ++ '.' :: F)).toList.dropWhile isJsSpace =
          a :: (t ++ '.' :: F) := by
        simp [List.dropWhile_cons, digit_not_space a ha]
      rw [hdrop]
      have h1 : ¬ a = '-' := digit_ne a ha '-' (by decide)
      have h2 : ¬ a = '+' := digit_ne a ha '+' (by decide)
      simp only [h1, h2, if_false]
      simpa using hcore

/-- commaToDotL over a comma-free digit block replaces the first comma after
the block. -/
theorem commaToDotL_digits_append (D F : List Char) (hD : ∀ c ∈ D, c.isDigit = true) :
    commaToDotL (D ++ ',' :: F) = D ++ '.' :: F := by
  induction D with
  | nil => simp [commaToDotL]
  | cons a t ih =>
      have ha : ¬ a = ',' := digit_ne a (hD a (List.mem_cons_self a t)) ',' (by decide)
      simp only [List.cons_append, commaToDotL, ha, if_false, List.append_eq]
      rw [ih (fun c hc => hD c (List.mem_cons_of_mem a hc))]

/-- Claim C5 as amended, for the locale parser parseValorBrasileiro of the
dashboard: a Brazilian-formatted string — digits interspersed with thousands
dots, a comma, then fraction digits — parses to the exact denoted decimal; a
dot-decimal string of digits parses to the exact denoted decimal as-is; and an
input whose cleaning leaves nothing (empty or letters-only input) parses to 0
rather than raising. The per-row parsing of parseSpreadsheetToSales does not
satisfy the Brazilian part, as the counterexample shows. -/
theorem c5_parseValorBrasileiro_contract :
    (∀ I F : List Char, (∀ c ∈ I, c.isDigit = true ∨ c = '.') →
      (∀ c ∈ F, c.isDigit = true) →
      parseValorBrasileiro (String.mk (I ++ ',' :: F)) =
        (digitsVal (I.filter Char.isDigit) : Rat) +
          (digitsVal F : Rat) / (10 : Rat) ^ F.length) ∧
    (∀ I F : List Char, (∀ c ∈ I, c.isDigit = true) → (∀ c ∈ F, c.isDigit = true) →
      parseValorBrasileiro (String.mk (I ++ '.' :: F)) =
        (digitsVal I : Rat) + (digitsVal F : Rat) / (10 : Rat) ^ F.length) ∧
    (∀ s : String, cleanNumericL s.toList = [] → parseValorBrasileiro s = 0) := by
  refine ⟨?_, ?_, ?_⟩
  · intro I F hI hF
    have hne : ¬ (String.mk (I ++ ',' :: F) = "") := by
      intro h
      have h2 : I ++ ',' :: F = ("" : String).toList := congrArg String.toList h
      simp at h2
    have hclean : cleanNumericL (I ++ ',' :: F) = I ++ ',' :: F := by
      apply List.filter_eq_self.mpr
      intro a ha
      rcases List.mem_append.mp ha with haI | haF
      · rcases hI a haI with had | hadot
        · simp [had]
        · subst hadot; simp
      · rcases List.mem_cons.mp haF with hac | haF2
        · subst hac; simp
        · simp [hF a haF2]
    have hcontains : (I ++ ',' :: F).contains ',' = true :=
      List.elem_eq_true_of_mem (by simp)
    have hsem : (I ++ ',' :: F).filter (fun c => !(c == '.')) =
        I.filter Char.isDigit ++ ',' :: F := by
      rw [List.filter_append]
      have hIpart : I.filter (fun c => !(c == '.')) = I.filter Char.isDigit := by
        apply List.filter_congr
        intro a ha
        rcases hI a ha with had | hadot
        · have hne2 : (a == '.') = false := by
            simp only [beq_eq_false_iff_ne, ne_eq]
            exact digit_ne a had '.' (by decide)
          simp [hne2, had]
        · subst hadot; simp
      have hFpart : F.filter (fun c => !(c == '.')) = F := by
        apply List.filter_eq_self.mpr
        intro a ha
        have hne2 : (a == '.') = false := by
          simp only [beq_eq_false_iff_ne, ne_eq]
          exact digit_ne a (hF a ha) '.' (by decide)
        simp [hne2]
      rw [hIpart]
      have hcommadot : ((',' : Char) == '.') = false := by decide
      simp [List.filter_cons, hcommadot, hFpart]
    have hDfilter : ∀ c ∈ I.filter Char.isDigit, c.isDigit = true :=
      fun c hc => (List.mem_filter.mp hc).2
    unfold parseValorBrasileiro
    rw [if_neg hne]
    simp only [String.toList] at *
    simp only [hclean, hcontains, Bool.not_true, Bool.false_eq_true, if_false, hsem]
    rw [commaToDotL_digits_append _ _ hDfilter]
    rw [jsParseFloat_digits_dot _ _ hDfilter hF]
    split
    next hboth =>
      have hparts := (Bool.and_eq_true _ _).mp hboth
      rw [List.isEmpty_iff.mp hparts.1, List.isEmpty_iff.mp hparts.2]
      norm_num [digitsVal]
    next hboth => rfl
  · intro I F hI hF
    have hne : ¬ (String.mk (I ++ '.' :: F) = "") := by
      intro h
      have h2 : I ++ '.' :: F = ("" : String).toList := congrArg String.toList h
      simp at h2
    have hclean : cleanNumericL (I ++ '.' :: F) = I ++ '.' :: F := by
      apply List.filter_eq_self.mpr
      intro a ha
      rcases List.mem_append.mp ha with haI | haF
      · simp [hI a haI]
      · rcases List.mem_cons.mp haF with hac | haF2
        · subst hac; simp
        · simp [hF a haF2]
    have hnocomma : (I ++ '.' :: F).contains ',' = false := by
      by_contra hcon
      simp only [Bool.not_eq_false] at hcon
      have hmem := List.mem_of_elem_eq_true hcon
      rcases List.mem_append.mp hmem with haI | haF
      · exact absurd rfl (digit_ne ',' ((hI ',' haI)) ',' (by decide))
      · rcases List.mem_cons.mp haF with hac | haF2
        · cases hac
        · exact absurd rfl (digit_ne ',' ((hF ',' haF2)) ',' (by decide))
    unfold parseValorBrasileiro
    rw [if_neg hne]
    simp only [String.toList] at *
    simp only [hclean, hnocomma, Bool.not_false, if_true]
    rw [jsParseFloat_digits_dot _ _ hI hF]
    split
    next hboth =>
      have hparts := (Bool.and_eq_true _ _).mp hboth
      rw [List.isEmpty_iff.mp hparts.1, List.isEmpty_iff.mp hparts.2]
      norm_num [digitsVal]
    next hboth => rfl
  · intro s hs
    by_cases hempty : s = ""
    · simp [parseValorBrasileiro, hempty]
    · unfold parseValorBrasileiro
      rw [if_neg hempty]
      simp only [hs]
      rfl

/-- Witness for C5: the contract applied to the spec examples — the Brazilian
string 1.234,56 and the plain string 1234.56 both parse to 1234.56 exactly. -/
theorem c5_locale_parser_witness :
    parseValorBrasileiro "1.234,56" = 123456 / 100 ∧
    parseValorBrasileiro "1234.56" = 123456 / 100 := by
  have hstr1 : String.mk (['1', '.', '2', '3', '4'] ++ ',' :: ['5', '6']) = "1.234,56" := by
    decide
  have hstr2 : String.mk (['1', '2', '3', '4'] ++ '.' :: ['5', '6']) = "1234.56" := by
    decide
  have h1 := c5_parseValorBrasileiro_contract.1 ['1', '.', '2', '3', '4'] ['5', '6']
    (by decide) (by decide)
  have h2 := c5_parseValorBrasileiro_contract.2.1 ['1', '2', '3', '4'] ['5', '6']
    (by decide) (by decide)
  rw [hstr1] at h1
  rw [hstr2] at h2
  have e1 : digitsVal (['1', '.', '2', '3', '4'].filter Char.isDigit) = 1234 := by decide
  have e2 : digitsVal ['5', '6'] = 56 := by decide
  have e3 : digitsVal ['1', '2', '3', '4'] = 1234 := by decide
  have e4 : (['5', '6'] : List Char).length = 2 := by decide
  rw [e1, e2, e4] at h1
  rw [e3, e2, e4] at h2
  constructor
  · rw [h1]; norm_num
  · rw [h2]; norm_num

end BrFintech
